import Mathlib

/-!
Verification development for the Jarvis assistant service
(Flask app in app.py, completion gateway in llm_client.py,
retrieval gateway in vector_db.py, configuration in config.py).

The external services (completion service, vector index, embedding model)
are black boxes; they are modelled by oracle parameters supplied to each
step function.  All orchestration logic is translated directly from the
source files.
-/

namespace Jarvis

/-- A role-tagged chat message, as the dicts
`\x7b"role": ..., "content": ...\x7d` used throughout app.py and
llm_client.py. -/
structure Message where
  role : String
  content : String
deriving DecidableEq, Repr

/-- Config.SYSTEM_PROMPT from config.py. -/
def SYSTEM_PROMPT : String :=
  "You are Jarvis, an intelligent AI assistant created to help users with their questions and tasks.\nYou are helpful, harmless, and honest. You provide accurate, contextual responses.\nWhen given context from the knowledge base, use it to provide more relevant answers.\nIf you don't know something, admit it rather than making things up."

/-- Python list slice l[-n:]: the most recent n elements (the whole list
when it is shorter than n). -/
def takeLast {α : Type} (n : Nat) (l : List α) : List α :=
  l.drop (l.length - n)

/-! ## Completion gateway (llm_client.py, LLMClient.chat) -/

/-- Outcome of the external chat-completions call inside the try block of
LLMClient.chat: either the generated content, or an exception whose string
representation is errText. -/
inductive LLMOutcome where
  | ok (content : String)
  | failure (errText : String)
deriving DecidableEq, Repr

/-- The system message content built by LLMClient.chat lines 36-38:
the fixed system prompt, extended with the retrieved context when the
context string is truthy (present and non-empty). -/
def systemContent (context : Option String) : String :=
  match context with
  | some c =>
      if c.isEmpty then SYSTEM_PROMPT
      else SYSTEM_PROMPT ++ "\n\nRelevant knowledge from the database:\n" ++ c
  | none => SYSTEM_PROMPT

/-- The message list assembled by LLMClient.chat lines 33-47: one system
message, then the supplied conversation history (extending by an empty
history is a no-op, so the truthiness guard on line 43 is absorbed), then
the current user message. -/
def buildMessages (context : Option String) (history : List Message)
    (userMessage : String) : List Message :=
  { role := "system", content := systemContent context } ::
    (history ++ [{ role := "user", content := userMessage }])

/-- The string returned by LLMClient.chat lines 49-58: the generated
content on success, and the formatted error string (never a raised
exception) when the completions call fails. -/
def llmChatReply (outcome : LLMOutcome) : String :=
  match outcome with
  | .ok content => content
  | .failure errText => "Error communicating with LLM: " ++ errText

/-! ## Session store (the conversations dict in app.py) -/

/-- The process-wide conversations dict of app.py line 18, modelled as an
association list from session id to message list. -/
abbrev Conversations := List (String × List Message)

/-- Dict assignment conversations[k] = v. -/
def updateConv (k : String) (v : List Message) (c : Conversations) :
    Conversations :=
  (k, v) :: c.filter (fun p => p.1 != k)

/-- Dict deletion: del conversations[k] (app.py line 178). -/
def eraseConv (k : String) (c : Conversations) : Conversations :=
  c.filter (fun p => p.1 != k)

/-! ## POST /api/chat (app.py, chat, lines 55-106) -/

/-- JSON body of POST /api/chat; absent fields are none. -/
structure ChatRequest where
  message : Option String
  session_id : Option String
  use_knowledge : Option Bool
deriving DecidableEq, Repr

/-- Observable result of one chat call: the new session store, the HTTP
status, the response JSON field, the message list submitted to the
completion service (none when it was never called), and the
context_used field. -/
structure ChatOutput where
  conversations : Conversations
  status : Nat
  responseField : Option String
  sentToLLM : Option (List Message)
  contextUsed : Bool
deriving Repr

/-- The chat endpoint, app.py lines 55-106.  Oracles: vdbConfigured is
vector_db.is_configured(); searchResults is what vector_db.search would
return for this query; outcome is the external completion call result. -/
def chatEndpoint (convs : Conversations) (data : Option ChatRequest)
    (vdbConfigured : Bool) (searchResults : List String)
    (outcome : LLMOutcome) : ChatOutput :=
  match data with
  | none =>
      { conversations := convs, status := 400, responseField := none,
        sentToLLM := none, contextUsed := false }
  | some d =>
    match d.message with
    | none =>
        { conversations := convs, status := 400, responseField := none,
          sentToLLM := none, contextUsed := false }
    | some userMessage =>
      let sessionId := d.session_id.getD "default"
      let useKnowledge := d.use_knowledge.getD true
      let history := (List.lookup sessionId convs).getD []
      let context : Option String :=
        if useKnowledge && vdbConfigured && !searchResults.isEmpty then
          some (String.intercalate "\n\n" searchResults)
        else none
      let reply := llmChatReply outcome
      let sent := buildMessages context (takeLast 10 history) userMessage
      let newHistory :=
        takeLast 20 (history ++
          [{ role := "user", content := userMessage },
           { role := "assistant", content := reply }])
      { conversations := updateConv sessionId newHistory convs,
        status := 200, responseField := some reply,
        sentToLLM := some sent, contextUsed := context.isSome }

/-! ## POST /api/session/clear (app.py, clear_session, lines 171-180) -/

/-- JSON body of POST /api/session/clear. -/
structure ClearRequest where
  session_id : Option String
deriving DecidableEq, Repr

/-- The session-clear endpoint, app.py lines 171-180; always 200. -/
def clearEndpoint (convs : Conversations) (data : Option ClearRequest) :
    Conversations × Nat :=
  let sessionId :=
    match data with
    | some d => d.session_id.getD "default"
    | none => "default"
  (eraseConv sessionId convs, 200)

/-! ## Retrieval gateway (vector_db.py) -/

/-- One match returned by the external vector index query, carrying a
similarity score and a metadata map (string-valued, as produced by
add_knowledge). -/
structure DBMatch where
  score : ℚ
  metadata : List (String × String)
deriving DecidableEq, Repr

/-- Outcome of the embed-and-query attempt inside the try block of
VectorDBClient.search: the ranked match list, or any exception. -/
inductive QueryOutcome where
  | ok (ms : List DBMatch)
  | failure
deriving DecidableEq, Repr

/-- The filtering loop of VectorDBClient.search lines 135-141: keep each
match with score strictly above 0.5 whose metadata holds a text entry,
collecting the stored texts in store order. -/
def collectTexts : List DBMatch → List String
  | [] => []
  | m :: rest =>
      if (1 : ℚ)/2 < m.score then
        match List.lookup "text" m.metadata with
        | some t => t :: collectTexts rest
        | none => collectTexts rest
      else collectTexts rest

/-- VectorDBClient.search lines 113-144: empty when the index is not
configured, empty when the embed-or-query attempt raises, otherwise the
filtered texts. -/
def search (configured : Bool) (outcome : QueryOutcome) : List String :=
  if configured then
    match outcome with
    | .ok ms => collectTexts ms
    | .failure => []
  else []

/-- VectorDBClient._generate_id lines 73-75: the id of a text chunk is the
hex digest of the MD5 hash of the text.  The digest pipeline is a fixed
deterministic function of the text alone, supplied here as the parameter
hash. -/
def generate_id (hash : String → String) (text : String) : String :=
  hash text

/-- The KnowledgeRecord submitted by VectorDBClient.add_knowledge
lines 96-107: id from the content hash, values from the external
embedding function, metadata = caller metadata with the text key
force-set to the original text. -/
structure KnowledgeRecord where
  id : String
  values : List ℚ
  metadata : List (String × String)
deriving Repr

/-- Python dict assignment meta["text"] = text on the caller-supplied
metadata (vector_db.py lines 100-101). -/
def setMetaText (text : String) (metadata : List (String × String)) :
    List (String × String) :=
  ("text", text) :: metadata.filter (fun p => p.1 != "text")

/-- The record constructed by VectorDBClient.add_knowledge lines 96-107
before the upsert call; embed is the external embedding function. -/
def addKnowledgeRecord (hash : String → String) (embed : String → List ℚ)
    (text : String) (metadata : List (String × String)) : KnowledgeRecord :=
  { id := generate_id hash text,
    values := embed text,
    metadata := setMetaText text metadata }

/-! ## Knowledge endpoints (app.py, add_knowledge and search_knowledge) -/

/-- JSON body of POST /api/knowledge. -/
structure KnowledgeRequest where
  text : Option String
  metadata : Option (List (String × String))
deriving Repr

/-- JSON body of POST /api/knowledge/search. -/
structure SearchRequest where
  query : Option String
  top_k : Option Nat
deriving Repr

/-- HTTP status of a knowledge endpoint call plus whether the embedding
function was invoked during it. -/
structure EndpointResult where
  status : Nat
  embedInvoked : Bool
deriving DecidableEq, Repr

/-- POST /api/knowledge, app.py lines 109-137: 400 on missing text, 503
when the vector db is not configured (before any gateway call), otherwise
add_knowledge runs, invoking the embedding function, and the endpoint
returns 200 on success and 500 on failure (storeOk is the boolean
returned by the gateway). -/
def addKnowledgeEndpoint (configured : Bool) (storeOk : Bool)
    (data : Option KnowledgeRequest) : EndpointResult :=
  match data with
  | none => { status := 400, embedInvoked := false }
  | some d =>
    match d.text with
    | none => { status := 400, embedInvoked := false }
    | some _ =>
      if configured then
        if storeOk then { status := 200, embedInvoked := true }
        else { status := 500, embedInvoked := true }
      else { status := 503, embedInvoked := false }

/-- POST /api/knowledge/search, app.py lines 140-168: 400 on missing
query, 503 when the vector db is not configured (before any gateway
call), otherwise search runs (invoking the embedding function on the
query) and the endpoint returns 200. -/
def searchKnowledgeEndpoint (configured : Bool)
    (data : Option SearchRequest) : EndpointResult :=
  match data with
  | none => { status := 400, embedInvoked := false }
  | some d =>
    match d.query with
    | none => { status := 400, embedInvoked := false }
    | some _ =>
      if configured then { status := 200, embedInvoked := true }
      else { status := 503, embedInvoked := false }

/-! ## Reachable session-store states -/

/-- True when the history is a sequence of consecutive
(user, assistant) message pairs. -/
def pairsOk : List Message → Bool
  | [] => true
  | [_] => false
  | u :: a :: rest =>
      (u.role == "user") && (a.role == "assistant") && pairsOk rest

/-- Session stores reachable from process start (empty dict) by any
sequence of chat and session-clear calls; the other endpoints never touch
the conversations dict. -/
inductive Reachable : Conversations → Prop where
  | init : Reachable []
  | chat (convs : Conversations) (data : Option ChatRequest)
      (cfg : Bool) (res : List String) (out : LLMOutcome) :
      Reachable convs →
      Reachable (chatEndpoint convs data cfg res out).conversations
  | clear (convs : Conversations) (data : Option ClearRequest) :
      Reachable convs →
      Reachable (clearEndpoint convs data).1

/-! ## Helper lemmas about the dict model -/

theorem lookup_filterOut_self (k : String) (c : Conversations) :
    List.lookup k (c.filter (fun p => p.1 != k)) = none := by
  induction c with
  | nil => rfl
  | cons p rest ih =>
      obtain ⟨a, v⟩ := p
      by_cases hp : a = k
      · have hb : (a != k) = false := by simp [bne, hp]
        rw [List.filter_cons]
        simp only [hb, Bool.false_eq_true, if_false]
        exact ih
      · have hb : (a != k) = true := bne_iff_ne.mpr hp
        have hk : (k == a) = false := beq_eq_false_iff_ne.mpr (Ne.symm hp)
        rw [List.filter_cons]
        simp only [hb, if_true, List.lookup, hk]
        exact ih

theorem lookup_filterOut_ne (k k2 : String) (h : k2 ≠ k)
    (c : Conversations) :
    List.lookup k2 (c.filter (fun p => p.1 != k)) = List.lookup k2 c := by
  induction c with
  | nil => rfl
  | cons p rest ih =>
      obtain ⟨a, v⟩ := p
      by_cases hp : a = k
      · have hb : (a != k) = false := by simp [bne, hp]
        have hk2 : (k2 == a) = false :=
          beq_eq_false_iff_ne.mpr (by rw [hp]; exact h)
        rw [List.filter_cons]
        simp only [hb, Bool.false_eq_true, if_false, List.lookup, hk2]
        exact ih
      · have hb : (a != k) = true := bne_iff_ne.mpr hp
        rw [List.filter_cons]
        simp only [hb, if_true, List.lookup]
        cases hk2 : k2 == a with
        | true => rfl
        | false => exact ih

theorem lookup_updateConv_self (k : String) (v : List Message)
    (c : Conversations) : List.lookup k (updateConv k v c) = some v := by
  simp [updateConv, List.lookup]

theorem lookup_updateConv_ne (k k2 : String) (h : k2 ≠ k)
    (v : List Message) (c : Conversations) :
    List.lookup k2 (updateConv k v c) = List.lookup k2 c := by
  have hb : (k2 == k) = false := beq_eq_false_iff_ne.mpr h
  simp [updateConv, List.lookup, hb, lookup_filterOut_ne k k2 h c]

theorem lookup_eraseConv_self (k : String) (c : Conversations) :
    List.lookup k (eraseConv k c) = none :=
  lookup_filterOut_self k c

theorem lookup_eraseConv_ne (k k2 : String) (h : k2 ≠ k)
    (c : Conversations) :
    List.lookup k2 (eraseConv k c) = List.lookup k2 c :=
  lookup_filterOut_ne k k2 h c

theorem eraseConv_of_absent (k : String) (c : Conversations)
    (h : List.lookup k c = none) : eraseConv k c = c := by
  induction c with
  | nil => rfl
  | cons p rest ih =>
      obtain ⟨a, v⟩ := p
      cases hk : k == a with
      | true =>
          simp only [List.lookup, hk] at h
          simp at h
      | false =>
          simp only [List.lookup, hk] at h
          have hne : a ≠ k := Ne.symm (ne_of_beq_false hk)
          have hb : (a != k) = true := bne_iff_ne.mpr hne
          rw [eraseConv, List.filter_cons]
          simp only [hb, if_true]
          rw [show List.filter (fun p => p.1 != k) rest = eraseConv k rest
            from rfl, ih h]

/-! ## Helper lemmas about takeLast -/

theorem takeLast_suffix {α : Type} (n : Nat) (l : List α) :
    takeLast n l <:+ l :=
  List.drop_suffix _ l

theorem takeLast_length {α : Type} (n : Nat) (l : List α) :
    (takeLast n l).length = min n l.length := by
  simp [takeLast]
  omega

theorem takeLast_length_le {α : Type} (n : Nat) (l : List α) :
    (takeLast n l).length ≤ n := by
  rw [takeLast_length]
  omega

theorem takeLast_eq_self {α : Type} (n : Nat) (l : List α)
    (h : l.length ≤ n) : takeLast n l = l := by
  simp [takeLast, Nat.sub_eq_zero_of_le h]

theorem getLast?_drop_of_lt {α : Type} (l : List α) (k : Nat)
    (h : k < l.length) : (l.drop k).getLast? = l.getLast? := by
  induction l generalizing k with
  | nil => simp at h
  | cons x t ih =>
      cases k with
      | zero => simp
      | succ m =>
          have hm : m < t.length := by simpa using h
          simp only [List.drop_succ_cons]
          rw [ih m hm]
          cases t with
          | nil => simp at hm
          | cons y t2 => rw [List.getLast?_cons_cons]

theorem getLast?_takeLast {α : Type} (n : Nat) (l : List α)
    (hn : 0 < n) (hl : l ≠ []) :
    (takeLast n l).getLast? = l.getLast? := by
  have hlen : 0 < l.length := List.length_pos.mpr hl
  exact getLast?_drop_of_lt l (l.length - n) (by omega)

theorem mem_of_getLast?_eq {α : Type} (l : List α) (a : α)
    (h : l.getLast? = some a) : a ∈ l := by
  obtain ⟨hne, rfl⟩ := List.mem_getLast?_eq_getLast h
  exact List.getLast_mem hne

/-! ## Helper lemmas about pairsOk -/

theorem pairsOk_even : ∀ l : List Message, pairsOk l = true →
    l.length % 2 = 0
  | [], _ => rfl
  | [_], h => by simp [pairsOk] at h
  | _ :: _ :: rest, h => by
      simp only [pairsOk, Bool.and_eq_true] at h
      have := pairsOk_even rest h.2
      simp only [List.length_cons]
      omega

theorem pairsOk_roles : ∀ l : List Message, pairsOk l = true →
    ∀ m ∈ l, m.role = "user" ∨ m.role = "assistant"
  | [], _, m, hm => by simp at hm
  | [_], h, _, _ => by simp [pairsOk] at h
  | u :: a :: rest, h, m, hm => by
      simp only [pairsOk, Bool.and_eq_true, beq_iff_eq] at h
      simp only [List.mem_cons] at hm
      rcases hm with hm | hm | hm
      · left; rw [hm]; exact h.1.1
      · right; rw [hm]; exact h.1.2
      · exact pairsOk_roles rest h.2 m hm

theorem pairsOk_append (um am : String) :
    ∀ l : List Message, pairsOk l = true →
      pairsOk (l ++ [{ role := "user", content := um },
        { role := "assistant", content := am }]) = true
  | [], _ => by simp [pairsOk]
  | [_], h => by simp [pairsOk] at h
  | u :: a :: rest, h => by
      simp only [pairsOk, Bool.and_eq_true] at h
      simp only [List.cons_append, pairsOk, Bool.and_eq_true]
      exact ⟨⟨h.1.1, h.1.2⟩, pairsOk_append um am rest h.2⟩

theorem pairsOk_drop_two (l : List Message) (h : pairsOk l = true) :
    pairsOk (l.drop 2) = true := by
  match l with
  | [] => simpa using h
  | [_] => simp [pairsOk] at h
  | u :: a :: rest =>
      simp only [pairsOk, Bool.and_eq_true] at h
      simpa using h.2

theorem pairsOk_takeLast20 (h : List Message) (hlen : h.length ≤ 20)
    (hp : pairsOk h = true) (um am : String) :
    pairsOk (takeLast 20 (h ++ [{ role := "user", content := um },
      { role := "assistant", content := am }])) = true := by
  set l := h ++ [({ role := "user", content := um } : Message),
    { role := "assistant", content := am }] with hl
  have hplen : l.length = h.length + 2 := by simp [hl]
  have hpl : pairsOk l = true := pairsOk_append um am h hp
  by_cases hle : l.length ≤ 20
  · rw [takeLast_eq_self 20 l hle]; exact hpl
  · have heven : h.length % 2 = 0 := pairsOk_even h hp
    have h20 : h.length = 20 := by omega
    have : l.length - 20 = 2 := by omega
    rw [takeLast, this]
    exact pairsOk_drop_two l hpl

/-! ## The reachable-state invariant -/

theorem hist_invariant (convs : Conversations) (hr : Reachable convs) :
    ∀ sid h, List.lookup sid convs = some h →
      h.length ≤ 20 ∧ pairsOk h = true := by
  induction hr with
  | init => intro sid h hl; simp [List.lookup] at hl
  | chat convs data cfg res out _ ih =>
      intro sid h hl
      match data with
      | none => exact ih sid h hl
      | some d =>
        match hd : d.message with
        | none =>
            rw [chatEndpoint] at hl
            simp only [hd] at hl
            exact ih sid h hl
        | some msg =>
            rw [chatEndpoint] at hl
            simp only [hd] at hl
            by_cases hsid : sid = d.session_id.getD "default"
            · rw [hsid, lookup_updateConv_self] at hl
              have hh := (Option.some.injEq _ _).mp hl
              constructor
              · rw [← hh]; exact takeLast_length_le 20 _
              · rw [← hh]
                cases hold : List.lookup (d.session_id.getD "default") convs with
                | none =>
                    simp only [hold, Option.getD_none]
                    exact pairsOk_takeLast20 [] (by simp) rfl msg
                      (llmChatReply out)
                | some h0 =>
                    obtain ⟨hlen0, hp0⟩ := ih _ h0 hold
                    simp only [hold, Option.getD_some]
                    exact pairsOk_takeLast20 h0 hlen0 hp0 msg
                      (llmChatReply out)
            · rw [lookup_updateConv_ne _ _ hsid] at hl
              exact ih sid h hl
  | clear convs data _ ih =>
      intro sid h hl
      cases data with
      | none =>
          simp only [clearEndpoint] at hl
          by_cases hsid : sid = "default"
          · rw [hsid, lookup_eraseConv_self] at hl
            simp at hl
          · rw [lookup_eraseConv_ne _ _ hsid] at hl
            exact ih sid h hl
      | some d =>
          simp only [clearEndpoint] at hl
          by_cases hsid : sid = d.session_id.getD "default"
          · rw [hsid, lookup_eraseConv_self] at hl
            simp at hl
          · rw [lookup_eraseConv_ne _ _ hsid] at hl
            exact ih sid h hl

theorem hist_no_system (convs : Conversations) (hr : Reachable convs)
    (sid : String) :
    ∀ m ∈ (List.lookup sid convs).getD [], m.role ≠ "system" := by
  intro m hm
  cases hl : List.lookup sid convs with
  | none => rw [hl] at hm; simp at hm
  | some h0 =>
      rw [hl] at hm
      simp only [Option.getD_some] at hm
      have hrole :=
        pairsOk_roles h0 (hist_invariant convs hr sid h0 hl).2 m hm
      rcases hrole with h1 | h1 <;> rw [h1] <;> decide

/-! ## The claims -/

/-- Claim C1: across any sequence of chat and session-clear calls every
stored session history stays at most 20 messages long, and each valid
chat call stores exactly the most recent 20 messages of the old history
followed by the new user and assistant messages, in call order, so an
append past 20 discards the oldest messages. -/
theorem chat_history_sliding_window :
    (∀ convs, Reachable convs → ∀ sid h,
        List.lookup sid convs = some h → h.length ≤ 20) ∧
    (∀ convs (d : ChatRequest) cfg res out msg, d.message = some msg →
        List.lookup (d.session_id.getD "default")
            (chatEndpoint convs (some d) cfg res out).conversations =
          some (takeLast 20
            ((List.lookup (d.session_id.getD "default") convs).getD [] ++
              [{ role := "user", content := msg },
               { role := "assistant", content := llmChatReply out }]))) := by
  constructor
  · intro convs hr sid h hl
    exact (hist_invariant convs hr sid h hl).1
  · intro convs d cfg res out msg hmsg
    rw [chatEndpoint]
    simp only [hmsg]
    exact lookup_updateConv_self _ _ _

/-- Concrete run of chat_history_sliding_window: one chat call on a fresh
store leaves exactly the new user and assistant pair. -/
theorem chat_history_sliding_window_witness :
    List.lookup "s1"
        (chatEndpoint []
          (some { message := some "hi", session_id := some "s1", use_knowledge := none })
          false [] (.ok "yo")).conversations =
      some [{ role := "user", content := "hi" },
            { role := "assistant", content := "yo" }] := by
  have h := chat_history_sliding_window.2 []
    { message := some "hi", session_id := some "s1", use_knowledge := none }
    false [] (LLMOutcome.ok "yo") "hi" rfl
  exact h

/-- Claim C9: on every reachable session store, each stored history has
even length and consists of consecutive (user, assistant) message pairs
in call order. -/
theorem chat_history_user_assistant_pairs (convs : Conversations)
    (hr : Reachable convs) (sid : String) (h : List Message)
    (hl : List.lookup sid convs = some h) :
    h.length % 2 = 0 ∧ pairsOk h = true := by
  have hp := (hist_invariant convs hr sid h hl).2
  exact ⟨pairsOk_even h hp, hp⟩

/-- Concrete run of chat_history_user_assistant_pairs after a single chat
call. -/
theorem chat_history_user_assistant_pairs_witness :
    ([({ role := "user", content := "hi" } : Message),
              { role := "assistant", content := "yo" }].length % 2 = 0) ∧
    pairsOk [({ role := "user", content := "hi" } : Message),
              { role := "assistant", content := "yo" }] = true := by
  have hr : Reachable (chatEndpoint []
      (some { message := some "hi", session_id := some "s1", use_knowledge := none })
      false [] (.ok "yo")).conversations :=
    Reachable.chat [] _ false [] (.ok "yo") Reachable.init
  exact chat_history_user_assistant_pairs _ hr "s1" _ (by rfl)

/-- Claim C2: every valid chat call submits to the completion service a
message list with exactly one system message first, then at most the 10
most recent stored history messages in stored order, ending with exactly
one user message holding the current text. -/
theorem chat_sent_message_list_shape (convs : Conversations)
    (hr : Reachable convs) (d : ChatRequest) (cfg : Bool)
    (res : List String) (out : LLMOutcome) (msg : String)
    (hmsg : d.message = some msg) :
    ∀ hist, hist = (List.lookup (d.session_id.getD "default") convs).getD []
      → ∃ sysC,
      (chatEndpoint convs (some d) cfg res out).sentToLLM =
        some ({ role := "system", content := sysC } ::
          (takeLast 10 hist ++ [{ role := "user", content := msg }])) ∧
      (({ role := "system", content := sysC } ::
          (takeLast 10 hist ++ [{ role := "user", content := msg }])).filter
            (fun m => m.role == "system")).length = 1 ∧
      (takeLast 10 hist).length ≤ 10 ∧
      takeLast 10 hist <:+ hist ∧
      ({ role := "system", content := sysC } ::
          (takeLast 10 hist ++ [{ role := "user", content := msg }])).getLast?
        = some { role := "user", content := msg } := by
  intro hist hhist
  refine ⟨systemContent (if d.use_knowledge.getD true && cfg &&
      !res.isEmpty then some (String.intercalate "\n\n" res) else none),
    ?_, ?_, takeLast_length_le 10 hist, takeLast_suffix 10 hist, ?_⟩
  · rw [chatEndpoint]
    simp only [hmsg, buildMessages, hhist]
  · rw [List.filter_cons]
    have hsys : (("system" : String) == "system") = true := by decide
    simp only [hsys, if_true]
    have htail : (takeLast 10 hist ++
        [({ role := "user", content := msg } : Message)]).filter
          (fun m => m.role == "system") = [] := by
      rw [List.filter_eq_nil_iff]
      intro m hm
      rcases List.mem_append.mp hm with hm1 | hm1
      · have hmem : m ∈ hist := (takeLast_suffix 10 hist).subset hm1
        have hns : m.role ≠ "system" := by
          rw [hhist] at hmem
          exact hist_no_system convs hr _ m hmem
        simpa using hns
      · have hmu : m = { role := "user", content := msg } := by
          simpa using hm1
        rw [hmu]
        show ¬(("user" : String) == "system") = true
        decide
    rw [htail]
    rfl
  · rw [← List.cons_append]
    exact List.getLast?_concat _

/-- Concrete run of chat_sent_message_list_shape from the empty store:
the submitted list is exactly the system message and the user message. -/
theorem chat_sent_message_list_shape_witness :
    ∃ sysC,
      (chatEndpoint []
          (some { message := some "hi", session_id := none, use_knowledge := none })
          false [] (.ok "yo")).sentToLLM =
        some ({ role := "system", content := sysC } ::
          (takeLast 10 [] ++ [{ role := "user", content := "hi" }])) ∧
      (({ role := "system", content := sysC } ::
          (takeLast 10 [] ++
            [({ role := "user", content := "hi" } : Message)])).filter
            (fun m => m.role == "system")).length = 1 ∧
      (takeLast 10 ([] : List Message)).length ≤ 10 ∧
      takeLast 10 ([] : List Message) <:+ [] ∧
      ({ role := "system", content := sysC } ::
          (takeLast 10 [] ++
            [({ role := "user", content := "hi" } : Message)])).getLast?
        = some { role := "user", content := "hi" } :=
  chat_sent_message_list_shape [] Reachable.init
    { message := some "hi", session_id := none, use_knowledge := none }
    false [] (.ok "yo") "hi" rfl [] rfl

theorem collectTexts_origin : ∀ (ms : List DBMatch) (t : String),
    t ∈ collectTexts ms →
    ∃ m ∈ ms, (1 : ℚ)/2 < m.score ∧ List.lookup "text" m.metadata = some t
  | [], t, ht => by simp [collectTexts] at ht
  | m :: rest, t, ht => by
      rw [collectTexts] at ht
      by_cases hs : (1 : ℚ)/2 < m.score
      · rw [if_pos hs] at ht
        cases hmt : List.lookup "text" m.metadata with
        | some t2 =>
            rw [hmt] at ht
            rcases List.mem_cons.mp ht with h1 | h1
            · exact ⟨m, List.mem_cons_self m rest, hs, by rw [hmt, h1]⟩
            · obtain ⟨m2, hm2, hsc, hlk⟩ := collectTexts_origin rest t h1
              exact ⟨m2, List.mem_cons_of_mem m hm2, hsc, hlk⟩
        | none =>
            rw [hmt] at ht
            obtain ⟨m2, hm2, hsc, hlk⟩ := collectTexts_origin rest t ht
            exact ⟨m2, List.mem_cons_of_mem m hm2, hsc, hlk⟩
      · rw [if_neg hs] at ht
        obtain ⟨m2, hm2, hsc, hlk⟩ := collectTexts_origin rest t ht
        exact ⟨m2, List.mem_cons_of_mem m hm2, hsc, hlk⟩

theorem collectTexts_as_filter : ∀ ms : List DBMatch,
    collectTexts ms =
      (ms.filter (fun m => decide ((1 : ℚ)/2 < m.score) &&
        (List.lookup "text" m.metadata).isSome)).map
          (fun m => (List.lookup "text" m.metadata).getD "")
  | [] => rfl
  | m :: rest => by
      rw [List.filter_cons]
      by_cases hs : (1 : ℚ)/2 < m.score
      · have hbs : decide ((1 : ℚ)/2 < m.score) = true := decide_eq_true hs
        cases hmt : List.lookup "text" m.metadata with
        | some t =>
            rw [collectTexts, if_pos hs, hmt]
            simp only [hbs, hmt, Option.isSome_some, Bool.and_self]
            rw [if_pos trivial, List.map_cons]
            simp only [hmt, Option.getD_some]
            rw [collectTexts_as_filter rest]
        | none =>
            rw [collectTexts, if_pos hs, hmt]
            simp only [hbs, hmt, Option.isSome_none, Bool.and_false]
            rw [if_neg (by simp)]
            exact collectTexts_as_filter rest
      · have hbs : decide ((1 : ℚ)/2 < m.score) = false := decide_eq_false hs
        rw [collectTexts, if_neg hs]
        simp only [hbs, Bool.false_and]
        rw [if_neg (by simp)]
        exact collectTexts_as_filter rest

/-- Claim C3: search yields only the stored texts of matches scoring
strictly above 0.5 (a score of exactly 0.5 is excluded), in store order
(it equals the filtered map over the match list), and yields the empty
list when the gateway is unconfigured or the attempt fails. -/
theorem search_threshold_filter :
    (∀ out, search false out = []) ∧
    (search true .failure = []) ∧
    (∀ ms t, t ∈ search true (.ok ms) →
        ∃ m ∈ ms, (1 : ℚ)/2 < m.score ∧
          List.lookup "text" m.metadata = some t) ∧
    (∀ ms, search true (.ok ms) =
        (ms.filter (fun m => decide ((1 : ℚ)/2 < m.score) &&
          (List.lookup "text" m.metadata).isSome)).map
            (fun m => (List.lookup "text" m.metadata).getD "")) := by
  refine ⟨fun _ => rfl, rfl, ?_, ?_⟩
  · intro ms t ht
    exact collectTexts_origin ms t ht
  · intro ms
    exact collectTexts_as_filter ms

/-- Concrete run of search_threshold_filter: a match scoring 1 passes and
its stored text originates from it; a match scoring exactly 0.5 would not
appear at all. -/
theorem search_threshold_filter_witness :
    ∃ m ∈ [({ score := 1, metadata := [("text", "a")] } : DBMatch),
           { score := 1/2, metadata := [("text", "b")] }],
      (1 : ℚ)/2 < m.score ∧ List.lookup "text" m.metadata = some "a" := by
  refine search_threshold_filter.2.2.1
    [{ score := 1, metadata := [("text", "a")] },
     { score := 1/2, metadata := [("text", "b")] }] "a" ?_
  have hcalc : search true (.ok
      [{ score := 1, metadata := [("text", "a")] },
       { score := 1/2, metadata := [("text", "b")] }]) = ["a"] := by
    norm_num [search, collectTexts, List.lookup]
  rw [hcalc]
  exact List.mem_singleton.mpr rfl

/-- Claim C4: the record id constructed by add_knowledge depends only on
the text content, not on the metadata, so re-ingesting identical text
upserts the same record id. -/
theorem add_knowledge_id_depends_only_on_text
    (hash : String → String) (embed : String → List ℚ) (text : String)
    (md1 md2 : List (String × String)) :
    (addKnowledgeRecord hash embed text md1).id =
      (addKnowledgeRecord hash embed text md2).id := rfl

/-- Claim C5: with validated input and the retrieval gateway reporting
not configured, both knowledge endpoints answer 503 and the embedding
function is never invoked. -/
theorem knowledge_endpoints_unconfigured_503
    (dk : KnowledgeRequest) (ds : SearchRequest) (storeOk : Bool)
    (htext : dk.text.isSome = true) (hquery : ds.query.isSome = true) :
    addKnowledgeEndpoint false storeOk (some dk) =
      { status := 503, embedInvoked := false } ∧
    searchKnowledgeEndpoint false (some ds) =
      { status := 503, embedInvoked := false } := by
  obtain ⟨t, ht⟩ := Option.isSome_iff_exists.mp htext
  obtain ⟨q, hq⟩ := Option.isSome_iff_exists.mp hquery
  constructor
  · rw [addKnowledgeEndpoint]
    simp [ht]
  · rw [searchKnowledgeEndpoint]
    simp [hq]

/-- Concrete run of knowledge_endpoints_unconfigured_503. -/
theorem knowledge_endpoints_unconfigured_503_witness :
    addKnowledgeEndpoint false true
        (some { text := some "fact", metadata := none }) =
      { status := 503, embedInvoked := false } ∧
    searchKnowledgeEndpoint false
        (some { query := some "q", top_k := none }) =
      { status := 503, embedInvoked := false } :=
  knowledge_endpoints_unconfigured_503
    { text := some "fact", metadata := none }
    { query := some "q", top_k := none } true rfl rfl

/-- Claim C6: a chat request with an absent body or without the message
field is answered 400, the completion service is never called, and the
session store is left unchanged. -/
theorem chat_missing_message_400 (convs : Conversations)
    (data : Option ChatRequest) (cfg : Bool) (res : List String)
    (out : LLMOutcome)
    (h : data = none ∨ ∃ d, data = some d ∧ d.message = none) :
    (chatEndpoint convs data cfg res out).status = 400 ∧
    (chatEndpoint convs data cfg res out).conversations = convs ∧
    (chatEndpoint convs data cfg res out).sentToLLM = none := by
  rcases h with h | ⟨d, hd, hm⟩
  · rw [h]
    exact ⟨rfl, rfl, rfl⟩
  · rw [hd, chatEndpoint]
    simp [hm]

/-- Concrete run of chat_missing_message_400 on a body without the
message field. -/
theorem chat_missing_message_400_witness :
    (chatEndpoint [("s1", [])]
        (some { message := none, session_id := some "s1", use_knowledge := none })
        true ["doc"] (.ok "x")).status = 400 ∧
    (chatEndpoint [("s1", [])]
        (some { message := none, session_id := some "s1", use_knowledge := none })
        true ["doc"] (.ok "x")).conversations = [("s1", [])] ∧
    (chatEndpoint [("s1", [])]
        (some { message := none, session_id := some "s1", use_knowledge := none })
        true ["doc"] (.ok "x")).sentToLLM = none :=
  chat_missing_message_400 [("s1", [])]
    (some { message := none, session_id := some "s1", use_knowledge := none })
    true ["doc"] (.ok "x") (Or.inr ⟨_, rfl, rfl⟩)

/-- Claim C7: the completion-gateway chat operation is a total function
of the call outcome (the catch-all except never lets an exception
escape): a failure is returned as the descriptive error string and a
success as the generated content. -/
theorem llm_chat_error_string_total :
    (∀ errText, llmChatReply (.failure errText) =
      "Error communicating with LLM: " ++ errText) ∧
    (∀ content, llmChatReply (.ok content) = content) :=
  ⟨fun _ => rfl, fun _ => rfl⟩

/-- Claim C8: POST /api/session/clear removes exactly the named session
(a no-op when it is absent), leaves every other session unchanged, and a
subsequent valid chat call reusing the cleared id starts from empty
history: the list sent upstream is exactly the system message and the
new user message, with no message from before the clear. -/
theorem clear_session_removes_and_frames (convs : Conversations)
    (sid : String) :
    List.lookup sid
        (clearEndpoint convs (some { session_id := some sid })).1 = none ∧
    (∀ other, other ≠ sid →
      List.lookup other
          (clearEndpoint convs (some { session_id := some sid })).1 =
        List.lookup other convs) ∧
    (List.lookup sid convs = none →
      (clearEndpoint convs (some { session_id := some sid })).1 = convs) ∧
    (∀ (d : ChatRequest) cfg res out msg, d.message = some msg →
      d.session_id.getD "default" = sid →
      ∃ sysC,
        (chatEndpoint
            (clearEndpoint convs (some { session_id := some sid })).1
            (some d) cfg res out).sentToLLM =
          some [{ role := "system", content := sysC },
                { role := "user", content := msg }]) := by
  have hclear : (clearEndpoint convs (some { session_id := some sid })).1 =
      eraseConv sid convs := rfl
  refine ⟨?_, ?_, ?_, ?_⟩
  · rw [hclear]
    exact lookup_eraseConv_self sid convs
  · intro other hne
    rw [hclear]
    exact lookup_eraseConv_ne sid other hne convs
  · intro habs
    rw [hclear]
    exact eraseConv_of_absent sid convs habs
  · intro d cfg res out msg hmsg hsid
    refine ⟨systemContent (if d.use_knowledge.getD true && cfg &&
        !res.isEmpty then some (String.intercalate "\n\n" res) else none),
      ?_⟩
    rw [chatEndpoint]
    simp only [hmsg, hclear, hsid, lookup_eraseConv_self, buildMessages,
      Option.getD_none]
    rfl

/-- Concrete run of clear_session_removes_and_frames: clearing s1 keeps
s2 intact and the next chat under s1 sends only two messages upstream. -/
theorem clear_session_removes_and_frames_witness :
    List.lookup "s1"
        (clearEndpoint
          [("s1", [({ role := "user", content := "a" } : Message),
                   { role := "assistant", content := "b" }]), ("s2", [])]
          (some { session_id := some "s1" })).1 = none ∧
    List.lookup "s2"
        (clearEndpoint
          [("s1", [({ role := "user", content := "a" } : Message),
                   { role := "assistant", content := "b" }]), ("s2", [])]
          (some { session_id := some "s1" })).1 =
      List.lookup "s2"
        [("s1", [({ role := "user", content := "a" } : Message),
                 { role := "assistant", content := "b" }]), ("s2", [])] ∧
    ∃ sysC,
      (chatEndpoint
          (clearEndpoint
            [("s1", [({ role := "user", content := "a" } : Message),
                     { role := "assistant", content := "b" }]), ("s2", [])]
            (some { session_id := some "s1" })).1
          (some { message := some "m", session_id := some "s1", use_knowledge := none })
          false [] (.ok "r")).sentToLLM =
        some [{ role := "system", content := sysC },
              { role := "user", content := "m" }] := by
  have h := clear_session_removes_and_frames
    [("s1", [({ role := "user", content := "a" } : Message),
             { role := "assistant", content := "b" }]), ("s2", [])] "s1"
  exact ⟨h.1, h.2.1 "s2" (by decide),
    h.2.2.2 { message := some "m", session_id := some "s1", use_knowledge := none }
      false [] (.ok "r") "m" rfl rfl⟩

/-- Claim C10: when the completion call fails, the chat endpoint still
returns 200 with the error string in the response field, appends it to
the session history as an ordinary assistant message, and the next valid
chat call in the same session includes that message in the list sent to
the completion service. -/
theorem llm_failure_recorded_in_history (convs : Conversations)
    (d : ChatRequest) (cfg : Bool) (res : List String)
    (msg errText : String) (hmsg : d.message = some msg) :
    (chatEndpoint convs (some d) cfg res (.failure errText)).status = 200 ∧
    (chatEndpoint convs (some d) cfg res (.failure errText)).responseField
      = some ("Error communicating with LLM: " ++ errText) ∧
    (∃ h2, List.lookup (d.session_id.getD "default")
        (chatEndpoint convs (some d) cfg res
          (.failure errText)).conversations = some h2 ∧
      h2.getLast? = some { role := "assistant",
                           content := "Error communicating with LLM: " ++ errText } ∧
      (∀ (d2 : ChatRequest) cfg2 res2 out2 msg2 sent,
        d2.message = some msg2 →
        d2.session_id.getD "default" = d.session_id.getD "default" →
        (chatEndpoint
            (chatEndpoint convs (some d) cfg res
              (.failure errText)).conversations
            (some d2) cfg2 res2 out2).sentToLLM = some sent →
        ({ role := "assistant",
           content := "Error communicating with LLM: " ++ errText } : Message) ∈
          sent)) := by
  have hstat :
      (chatEndpoint convs (some d) cfg res (.failure errText)).status =
        200 := by
    rw [chatEndpoint]
    simp [hmsg]
  have hresp :
      (chatEndpoint convs (some d) cfg res
        (.failure errText)).responseField =
        some ("Error communicating with LLM: " ++ errText) := by
    rw [chatEndpoint]
    simp [hmsg, llmChatReply]
  refine ⟨hstat, hresp, ?_⟩
  set errMsg : Message := { role := "assistant",
                            content := "Error communicating with LLM: " ++ errText } with herrMsg
  set sid := d.session_id.getD "default" with hsiddef
  set hist := (List.lookup sid convs).getD [] with hhistdef
  set userMsg : Message := { role := "user", content := msg } with huserMsg
  have hconv : List.lookup sid
      (chatEndpoint convs (some d) cfg res
        (.failure errText)).conversations =
      some (takeLast 20 (hist ++ [userMsg, errMsg])) := by
    rw [chatEndpoint]
    simp only [hmsg]
    exact lookup_updateConv_self _ _ _
  refine ⟨takeLast 20 (hist ++ [userMsg, errMsg]), hconv, ?_, ?_⟩
  · have hne : hist ++ [userMsg, errMsg] ≠ [] := by simp
    rw [getLast?_takeLast 20 _ (by omega) hne]
    rw [show hist ++ [userMsg, errMsg] = (hist ++ [userMsg]) ++ [errMsg]
      from by simp]
    exact List.getLast?_concat _
  · intro d2 cfg2 res2 out2 msg2 sent hmsg2 hsid2 hsent
    have hsent2 : (chatEndpoint
        (chatEndpoint convs (some d) cfg res
          (.failure errText)).conversations
        (some d2) cfg2 res2 out2).sentToLLM =
        some (buildMessages
          (if d2.use_knowledge.getD true && cfg2 && !res2.isEmpty then
            some (String.intercalate "\n\n" res2) else none)
          (takeLast 10 ((List.lookup (d2.session_id.getD "default")
            (chatEndpoint convs (some d) cfg res
              (.failure errText)).conversations).getD []))
          msg2) := by
      rw [chatEndpoint]
      simp only [hmsg2]
    rw [hsent2] at hsent
    have hsenteq := (Option.some.injEq _ _).mp hsent
    rw [hsid2, hconv] at hsenteq
    simp only [Option.getD_some] at hsenteq
    set h2 := takeLast 20 (hist ++ [userMsg, errMsg]) with hh2
    have hlen2 : 0 < h2.length := by
      rw [hh2, takeLast_length]
      simp only [List.length_append, List.length_cons, List.length_nil]
      omega
    have hne2 : h2 ≠ [] := List.ne_nil_of_length_pos hlen2
    have hlast2 : h2.getLast? = some errMsg := by
      rw [hh2]
      have hne : hist ++ [userMsg, errMsg] ≠ [] := by simp
      rw [getLast?_takeLast 20 _ (by omega) hne]
      rw [show hist ++ [userMsg, errMsg] = (hist ++ [userMsg]) ++ [errMsg]
        from by simp]
      exact List.getLast?_concat _
    have hmem10 : errMsg ∈ takeLast 10 h2 := by
      apply mem_of_getLast?_eq
      rw [getLast?_takeLast 10 h2 (by omega) hne2]
      exact hlast2
    rw [← hsenteq]
    rw [buildMessages]
    exact List.mem_cons_of_mem _ (List.mem_append_left _ hmem10)

/-- Concrete run of llm_failure_recorded_in_history on a fresh store. -/
theorem llm_failure_recorded_in_history_witness :
    (chatEndpoint []
        (some { message := some "hi", session_id := none, use_knowledge := none })
        false [] (.failure "boom")).status = 200 ∧
    (chatEndpoint []
        (some { message := some "hi", session_id := none, use_knowledge := none })
        false [] (.failure "boom")).responseField =
      some ("Error communicating with LLM: " ++ "boom") ∧
    (∃ h2, List.lookup "default"
        (chatEndpoint []
          (some { message := some "hi", session_id := none, use_knowledge := none })
          false [] (.failure "boom")).conversations = some h2 ∧
      h2.getLast? = some { role := "assistant",
                           content := "Error communicating with LLM: " ++ "boom" } ∧
      (∀ (d2 : ChatRequest) cfg2 res2 out2 msg2 sent,
        d2.message = some msg2 →
        d2.session_id.getD "default" = "default" →
        (chatEndpoint
            (chatEndpoint []
              (some { message := some "hi", session_id := none, use_knowledge := none })
              false [] (.failure "boom")).conversations
            (some d2) cfg2 res2 out2).sentToLLM = some sent →
        ({ role := "assistant",
           content := "Error communicating with LLM: " ++ "boom" } : Message) ∈
          sent)) :=
  llm_failure_recorded_in_history []
    { message := some "hi", session_id := none, use_knowledge := none }
    false [] "hi" "boom" rfl

end Jarvis
